import Mathlib

/-!
Shallow embedding of the buck python-dsl build-file interpreter worker
(src/python-dsl/buck_parser/buck.py) and proofs about it.

Python dictionaries are modelled as association lists (first occurrence
wins on lookup; update replaces in place, insert appends at the end,
matching CPython's insertion-order semantics).  Python `None` is the
`PyVal.none` constructor.  A Python function that can raise is modelled
either as `Except String _` or, where the claim speaks about the state
left behind by a failed call, as a pair `Except String Unit × State`
whose second component is the state at the moment of the raise.
-/

namespace Buck

/-- A JSON-compatible Python value as it occurs in rule records and kwargs. -/
inductive PyVal where
  | none
  | bool (b : Bool)
  | int (n : Int)
  | str (s : String)
  | list (xs : List PyVal)

mutual
/-- Structural equality decision for `PyVal` (the nested `list` constructor
prevents automatic derivation). -/
def PyVal.decEq : (a b : PyVal) → Decidable (a = b)
  | .none, .none => isTrue rfl
  | .none, .bool _ | .none, .int _ | .none, .str _ | .none, .list _ => isFalse (by intro h; cases h)
  | .bool _, .none | .bool _, .int _ | .bool _, .str _ | .bool _, .list _ => isFalse (by intro h; cases h)
  | .int _, .none | .int _, .bool _ | .int _, .str _ | .int _, .list _ => isFalse (by intro h; cases h)
  | .str _, .none | .str _, .bool _ | .str _, .int _ | .str _, .list _ => isFalse (by intro h; cases h)
  | .list _, .none | .list _, .bool _ | .list _, .int _ | .list _, .str _ => isFalse (by intro h; cases h)
  | .bool a, .bool b =>
    if h : a = b then isTrue (by rw [h])
    else isFalse (by intro hh; cases hh; exact h rfl)
  | .int a, .int b =>
    if h : a = b then isTrue (by rw [h])
    else isFalse (by intro hh; cases hh; exact h rfl)
  | .str a, .str b =>
    if h : a = b then isTrue (by rw [h])
    else isFalse (by intro hh; cases hh; exact h rfl)
  | .list a, .list b =>
    match PyVal.decEqList a b with
    | isTrue h => isTrue (by rw [h])
    | isFalse h => isFalse (by intro hh; cases hh; exact h rfl)

/-- Equality decision for lists of `PyVal`. -/
def PyVal.decEqList : (a b : List PyVal) → Decidable (a = b)
  | [], [] => isTrue rfl
  | [], _ :: _ => isFalse (by intro h; cases h)
  | _ :: _, [] => isFalse (by intro h; cases h)
  | x :: xs, y :: ys =>
    match PyVal.decEq x y with
    | isFalse h => isFalse (by intro hh; cases hh; exact h rfl)
    | isTrue h =>
      match PyVal.decEqList xs ys with
      | isTrue h2 => isTrue (by rw [h, h2])
      | isFalse h2 => isFalse (by intro hh; cases hh; exact h2 rfl)
end

instance : DecidableEq PyVal := PyVal.decEq

/-- A Python dict with string keys and `PyVal` values. -/
abbrev Dict := List (String × PyVal)

/-- `d[k]` lookup on an association list: first matching key wins. -/
def alGet {κ α : Type} [DecidableEq κ] (d : List (κ × α)) (k : κ) : Option α :=
  match d with
  | [] => Option.none
  | (k1, v) :: rest => if k1 = k then some v else alGet rest k

/-- `d[k] = v` on an association list: replace in place, else append
(CPython dict assignment keeps the original insertion position). -/
def alSet {κ α : Type} [DecidableEq κ] (d : List (κ × α)) (k : κ) (v : α) : List (κ × α) :=
  match d with
  | [] => [(k, v)]
  | (k1, v1) :: rest => if k1 = k then (k1, v) :: rest else (k1, v1) :: alSet rest k v

/-- `dict.update(other)`: assign every key of `s` into `d`, in `s` order. -/
def alUpdate {κ α : Type} [DecidableEq κ] (d s : List (κ × α)) : List (κ × α) :=
  s.foldl (fun acc kv => alSet acc kv.1 kv.2) d

/-- `Option` fallback: the first operand when present, else the second
(used to state "last wins" lookups after a dict update). -/
def alOr {α : Type} (a b : Option α) : Option α :=
  match a with
  | some v => some v
  | Option.none => b

/-- `del d[k]` / building a dict without key `k`. -/
def alErase {κ α : Type} [DecidableEq κ] (d : List (κ × α)) (k : κ) : List (κ × α) :=
  d.filter (fun kv => decide (kv.1 ≠ k))

/-- The key list of a dict, in insertion order. -/
def keysOf {κ α : Type} (d : List (κ × α)) : List κ := d.map Prod.fst

/-- `dict.get(k)` on a `Dict`: returns Python `None` when the key is absent,
exactly as CPython's `dict.get` with its default default. -/
def pyGet (d : Dict) (k : String) : PyVal :=
  (alGet d k).getD .none

/-- `k in d` membership test. -/
def hasKey {κ α : Type} [DecidableEq κ] (d : List (κ × α)) (k : κ) : Bool :=
  (alGet d k).isSome

/-- Python set union via `set.update`: sets are unordered, so a duplicate-free
list union is a faithful model of the membership structure. -/
def setUnion {α : Type} [DecidableEq α] (a b : List α) : List α :=
  a ++ b.filter (fun x => decide (x ∉ a))

/-- `set.add(x)`. -/
def setAdd {α : Type} [DecidableEq α] (s : List α) (x : α) : List α :=
  if x ∈ s then s else s ++ [x]

mutual
/-- Python `str()` of a value, as used by `%s` / `format` in error messages. -/
def pyValStr : PyVal → String
  | .none => "None"
  | .bool b => if b then "True" else "False"
  | .int n => toString n
  | .str s => "'" ++ s ++ "'"
  | .list xs => "[" ++ pyValListStr xs ++ "]"

/-- Comma-joined `str()` of the elements of a Python list. -/
def pyValListStr : List PyVal → String
  | [] => ""
  | [x] => pyValStr x
  | x :: y :: rest => pyValStr x ++ ", " ++ pyValListStr (y :: rest)
end

/-- Python `str()` of a dict (insertion order, `repr` of string keys). -/
def dictStr (d : Dict) : String :=
  "\x7b" ++ String.intercalate ", " (d.map fun kv => "'" ++ kv.1 ++ "': " ++ pyValStr kv.2) ++ "\x7d"

/-- Python `str()` of a list of strings, as produced by `format` in the
empty-glob assertion message. -/
def pyStrListStr (xs : List String) : String :=
  "[" ++ String.intercalate ", " (xs.map fun s => "'" ++ s ++ "'") ++ "]"

/-- Python `str()` of a bool. -/
def pyBoolStr (b : Bool) : String := if b then "True" else "False"

/-- Substring test (used to state that an error message names something). -/
def strContains (hay needle : String) : Bool :=
  decide (List.IsInfix needle.data hay.data)

/-- Modelled from the spec: `Diagnostic` lives in the sibling `util`
module (not under src/); the spec gives it `{message, level, source,
exception?}`.  The opaque `exception` payload is omitted: no claim
inspects it. -/
structure Diagnostic where
  message : String
  level : String
  source : String
deriving DecidableEq

/-- `Attribute{default, mandatory}` as built by the `attr.*` family. -/
structure Attribute where
  default : PyVal
  mandatory : Bool
deriving DecidableEq

/-- The `^[a-zA-Z_][a-zA-Z0-9_]*$` check (`VALID_IDENTIFIER_NAMES`). -/
def VALID_IDENT (s : String) : Bool :=
  match s.data with
  | [] => false
  | c :: rest => (c.isAlpha || c = '_') && rest.all (fun d => d.isAlphanum || d = '_')

/-- `UserDefinedRule` factory state.  `required_attrs` / `optional_attrs`
are the tables picked from the autogenerated `generated_rules` module (a
static data module, out of scope per the spec) — they are carried as plain
data.  `buck_type` and `name` are `Option`s because the Python object only
acquires them in `set_name`; the `build_env` pointer is passed explicitly
at call time (`udrCall`). -/
structure UserDefinedRule where
  label : String
  buck_type : Option String
  name : Option String
  required_attrs : List String
  optional_attrs : List String
  attrs : List (String × Attribute)
deriving DecidableEq

/-- `UserDefinedRule._validate_attributes`: reject attrs shadowing a
builtin required/optional attribute or with an invalid identifier name,
and drop underscore-private names from the callable attribute set.  (The
`isinstance(attr, Attr.Attribute)` check is enforced by typing here.) -/
def validateAttributes (required optional : List String) :
    List (String × Attribute) → Except String (List (String × Attribute))
  | [] => .ok []
  | (nm, a) :: rest =>
    if nm ∈ required ∨ nm ∈ optional then
      .error (nm ++ " shadows a builtin attribute of the same name. Please remove it")
    else if VALID_IDENT nm = false then
      .error (nm ++ " is not a valid python identifier. Please rename it")
    else
      match validateAttributes required optional rest with
      | .error e => .error e
      | .ok res => .ok (if nm.startsWith "_" then res else (nm, a) :: res)

/-- `rule(attrs, test)` in an extension: construct a UDR factory.  The
required/optional tables (selected by the `test` flag from
`generated_rules`) are passed in as data. -/
def ruleFactory (label : String) (attrs : List (String × Attribute))
    (required optional : List String) : Except String UserDefinedRule :=
  match validateAttributes required optional attrs with
  | .error e => .error e
  | .ok modified =>
    .ok { label := label, buck_type := Option.none, name := Option.none,
          required_attrs := required, optional_attrs := optional, attrs := modified }

/-- `set_name`: performed by the engine when an include finishes loading.
Its assert that the binding name is a valid identifier always holds for
top-level module binding names, so the update is modelled directly. -/
def setNameU (u : UserDefinedRule) (n : String) : UserDefinedRule :=
  { u with buck_type := some (u.label ++ ":" ++ n), name := some n }

/-- `self.all_attrs = required | optional | attrs.keys()` (a set; list
concatenation carries the same membership structure). -/
def allAttrs (u : UserDefinedRule) : List String :=
  u.required_attrs ++ u.optional_attrs ++ u.attrs.map Prod.fst

/-- Nested `used_configs` accumulator: section → field → recorded value
(`Option.none` inside records the Python `None` sentinel for an unknown
key). -/
abbrev UsedConfigs := List (String × List (String × Option String))

/-- `used_configs[sect][field] = v` on a `collections.defaultdict(dict)`. -/
def ucSet (uc : UsedConfigs) (sect field : String) (v : Option String) : UsedConfigs :=
  match alGet uc sect with
  | some inner => alSet uc sect (alSet inner field v)
  | Option.none => uc ++ [(sect, [(field, v)])]

/-- `used_configs[sect][field]` read-only lookup: outer `none` when the
section or field was never recorded. -/
def ucGet (uc : UsedConfigs) (sect field : String) : Option (Option String) :=
  match alGet uc sect with
  | some inner => alGet inner field
  | Option.none => Option.none

/-- `BuildFileContext` — the accumulators plus the build-file-specific
fields.  The watchman plumbing fields (client handle, watch root, project
prefix, cookie state, tuning flags) are I/O handles; the glob embedding
(`GlobEnv`) carries them as an oracle function instead. -/
structure BuildFileContext where
  project_root : String
  base_path : String
  path : String
  dirname : String
  cell_name : String
  allow_empty_globs : Bool
  ignore_paths : List String
  includes : List String
  used_configs : UsedConfigs
  used_env_vars : List (String × Option String)
  diagnostics : List Diagnostic
  user_rules : List UserDefinedRule
  rules : List (String × Dict)
  implicit_package_symbols : Dict
deriving DecidableEq

/-- `IncludeContext` — the accumulators plus cell name, path and label. -/
structure IncludeContext where
  cell_name : String
  path : String
  label : String
  includes : List String
  used_configs : UsedConfigs
  used_env_vars : List (String × Option String)
  diagnostics : List Diagnostic
  user_rules : List UserDefinedRule
deriving DecidableEq

/-- The two concrete variants of `AbstractContext`. -/
inductive Context where
  | buildFile (c : BuildFileContext)
  | includeFile (c : IncludeContext)
deriving DecidableEq

/-- The abstract `includes` property. -/
def Context.includes : Context → List String
  | .buildFile c => c.includes
  | .includeFile c => c.includes

/-- The abstract `used_configs` property. -/
def Context.used_configs : Context → UsedConfigs
  | .buildFile c => c.used_configs
  | .includeFile c => c.used_configs

/-- The abstract `used_env_vars` property. -/
def Context.used_env_vars : Context → List (String × Option String)
  | .buildFile c => c.used_env_vars
  | .includeFile c => c.used_env_vars

/-- The abstract `diagnostics` property. -/
def Context.diagnostics : Context → List Diagnostic
  | .buildFile c => c.diagnostics
  | .includeFile c => c.diagnostics

/-- The abstract `user_rules` property. -/
def Context.user_rules : Context → List UserDefinedRule
  | .buildFile c => c.user_rules
  | .includeFile c => c.user_rules

/-- `AbstractContext.merge`: union `includes`, extend `diagnostics`,
shallow-update `used_configs` and `used_env_vars`, union `user_rules`;
nothing else changes. -/
def Context.merge (dst src : Context) : Context :=
  let inc := setUnion dst.includes src.includes
  let diags := dst.diagnostics ++ src.diagnostics
  let uc := alUpdate dst.used_configs src.used_configs
  let ev := alUpdate dst.used_env_vars src.used_env_vars
  let ur := setUnion dst.user_rules src.user_rules
  match dst with
  | .buildFile c =>
    .buildFile { c with
      includes := inc
      used_configs := uc
      used_env_vars := ev
      diagnostics := diags
      user_rules := ur }
  | .includeFile c =>
    .includeFile { c with
      includes := inc
      used_configs := uc
      used_env_vars := ev
      diagnostics := diags
      user_rules := ur }

/-- `add_rule(rule, build_env)`.  Each `raise` site returns the context as
it stands at that moment (no mutation precedes any raise, so errors leave
the context untouched); success inserts the record keyed by its name. -/
def add_rule (rule : Dict) (build_env : BuildFileContext) :
    Except String Unit × BuildFileContext :=
  if hasKey rule "name" = false then
    (.error ("rules must contain the field 'name'.  Found " ++ dictStr rule ++ "."), build_env)
  else
    match pyGet rule "name" with
    | .str rule_name =>
      (match alGet build_env.rules rule_name with
       | some existing =>
         (.error ("Duplicate rule definition '" ++ rule_name ++ "' found.  Found "
           ++ dictStr rule ++ " and " ++ dictStr existing), build_env)
       | Option.none =>
         let rule1 := alSet rule "buck.base_path" (.str build_env.base_path)
         (.ok (), { build_env with rules := alSet build_env.rules rule_name rule1 }))
    | v => (.error ("rules 'name' field must be a string.  Found " ++ pyValStr v ++ "."),
            build_env)

/-- `BuildFileProcessor._read_config(section, field, default)`.  The
orchestrator-supplied configs are keyed by `(section, field)` with string
values (the config file is JSON; the Python-2 unicode-to-str coercion and
its write-back into `self._configs` are the identity here).  Returns the
call's result and the updated `used_configs`. -/
def read_config (configs : List ((String × String) × String)) (uc : UsedConfigs)
    (sect field : String) (default : PyVal) : PyVal × UsedConfigs :=
  let value := alGet configs (sect, field)
  let uc1 := ucSet uc sect field value
  match value with
  | Option.none => (default, uc1)
  | some v => (.str v, uc1)

/-- The `os` flag record of `host_info()`. -/
structure HostInfoOs where
  is_linux : Bool
  is_macos : Bool
  is_windows : Bool
  is_freebsd : Bool
  is_unknown : Bool
deriving DecidableEq

/-- The `arch` flag record of `host_info()`. -/
structure HostInfoArch where
  is_aarch64 : Bool
  is_arm : Bool
  is_armeb : Bool
  is_i386 : Bool
  is_mips : Bool
  is_mips64 : Bool
  is_mipsel : Bool
  is_mipsel64 : Bool
  is_powerpc : Bool
  is_ppc64 : Bool
  is_unknown : Bool
  is_x86_64 : Bool
deriving DecidableEq

/-- The record returned by `host_info()`. -/
structure HostInfo where
  os : HostInfoOs
  arch : HostInfoArch
deriving DecidableEq

/-- Python `str.lower()` for the ASCII strings fed to the platform lookup
tables (`Char.toLower` lowers exactly the ASCII uppercase range). -/
def lowerStr (s : String) : String := String.mk (s.data.map Char.toLower)

/-- The `__supported_oses` closed lookup table. -/
def supported_oses : List (String × String) :=
  [("darwin", "macos"), ("windows", "windows"), ("linux", "linux"), ("freebsd", "freebsd")]

/-- The `__supported_archs` closed lookup table (`amd64` and `arm64`
remapped). -/
def supported_archs : List (String × String) :=
  [("aarch64", "aarch64"), ("arm", "arm"), ("armeb", "armeb"), ("i386", "i386"),
   ("mips", "mips"), ("mips64", "mips64"), ("mipsel", "mipsel"), ("mipsel64", "mipsel64"),
   ("powerpc", "powerpc"), ("ppc64", "ppc64"), ("unknown", "unknown"),
   ("x86_64", "x86_64"), ("amd64", "x86_64"), ("arm64", "aarch64")]

/-- `host_info(platform_system, platform_machine)`: the reported system
and machine strings are lowercased and pushed through the closed tables
(the strings involved are ASCII, where `String.toLower` agrees with
Python `str.lower`). -/
def host_info (platform_system platform_machine : String) : HostInfo :=
  let host_arch := (alGet supported_archs (lowerStr platform_machine)).getD "unknown"
  let host_os := (alGet supported_oses (lowerStr platform_system)).getD "unknown"
  { os := { is_linux := host_os == "linux", is_macos := host_os == "macos",
            is_windows := host_os == "windows", is_freebsd := host_os == "freebsd",
            is_unknown := host_os == "unknown" },
    arch := { is_aarch64 := host_arch == "aarch64", is_arm := host_arch == "arm",
              is_armeb := host_arch == "armeb", is_i386 := host_arch == "i386",
              is_mips := host_arch == "mips", is_mips64 := host_arch == "mips64",
              is_mipsel := host_arch == "mipsel", is_mipsel64 := host_arch == "mipsel64",
              is_powerpc := host_arch == "powerpc", is_ppc64 := host_arch == "ppc64",
              is_unknown := host_arch == "unknown", is_x86_64 := host_arch == "x86_64" } }

/-- `_RECURSIVE_GLOB_PATTERN = ^(\*/)*\*\*/`.  Whenever the string starts
with `**/` the `(\*/)*` loop cannot consume (it needs `*/`), so the match
is deterministic and this recursion is exactly the regex. -/
def isRecursiveGlob (p : String) : Bool :=
  recGlobAux p.data
where
  /-- Consume leading `*/` repetitions, then require `**/`. -/
  recGlobAux : List Char → Bool
    | '*' :: '*' :: '/' :: _ => true
    | '*' :: '/' :: rest => recGlobAux rest
    | _ => false

/-- The slice of `BuildFileContext` that `glob()` consults.
`watchman_client` models a configured watcher backend: `glob_watchman`
lives in the sibling `glob_watchman` module (not under src/), so it is
an oracle from the call's patterns to its result list (the `str`
normalisation of its results is the identity here).  `fs_walker` likewise
models `glob_internal` (sibling `glob_internal` module), taking the
patterns, the dotfiles flag and the search base. -/
structure GlobEnv where
  dirname : String
  project_root : String
  base_path : String
  allow_empty_globs : Bool
  watchman_client : Option (List String → List String → Bool → List String)
  fs_walker : List String → List String → Bool → String → List String

/-- The message of the empty-result assertion of `glob()` (its `format`
call). -/
def globEmptyMsg (includes excludes : List String) (include_dotfiles : Bool) : String :=
  "glob(includes=" ++ pyStrListStr includes ++ ", excludes=" ++ pyStrListStr excludes
    ++ ", include_dotfiles=" ++ pyBoolStr include_dotfiles
    ++ ") returned no results.  (allow_empty_globs is set to false in the Buck configuration)"

/-- The results computation inside `glob()`: empty includes short-circuit,
otherwise the watcher backend when configured, otherwise the internal
walker. -/
def globResults (env : GlobEnv) (includes excludes : List String)
    (include_dotfiles : Bool) (search_base : String) : List String :=
  if includes.isEmpty then []
  else
    match env.watchman_client with
    | some wm => wm includes excludes include_dotfiles
    | Option.none => env.fs_walker includes excludes include_dotfiles search_base

/-- `glob(includes, excludes, include_dotfiles, build_env, search_base)`.
`excludes = Option.none` models the `excludes=None` default (replaced by
`[]`); assertion failures and `fail(...)` raises are `.error`. -/
def glob (includes : List String) (excludesArg : Option (List String))
    (include_dotfiles : Bool) (env : GlobEnv) (sb : Option String) :
    Except String (List String) :=
  let excludes := excludesArg.getD []
  let search_base := sb.getD env.dirname
  if env.dirname = env.project_root ∧ includes.any isRecursiveGlob = true then
    .error "Recursive globs are prohibited at top-level directory"
  else
    let results := globResults env includes excludes include_dotfiles search_base
    if env.allow_empty_globs = false ∧ results = [] then
      .error (globEmptyMsg includes excludes include_dotfiles)
    else
      .ok results

/-- `str.split('/')` at the character level: adjacent, leading and
trailing separators produce empty components, and the empty string gives
one empty component, exactly as in Python. -/
def splitOnSlash : List Char → List (List Char)
  | [] => [[]]
  | c :: rest =>
    let r := splitOnSlash rest
    if c = '/' then [] :: r
    else
      match r with
      | [] => [[c]]
      | h :: t => (c :: h) :: t

/-- `os.path.join(a, b)` for POSIX paths (the two-argument form used by
`_resolve_include`); the `startswith`/`endswith` tests are taken on the
character list. -/
def joinPath (a b : String) : String :=
  match b.data with
  | '/' :: _ => b
  | _ =>
    if a = "" ∨ a.data.getLast? = some '/' then a ++ b
    else a ++ "/" ++ b

/-- `os.path.normpath` for POSIX paths, following CPython: drop empty and
`.` components, cancel `..` against a preceding real component, keep
leading `..`s of a relative path, and preserve one or exactly two leading
slashes. -/
def normpath (path : String) : String :=
  if path = "" then "."
  else
    let initial_slashes : Nat :=
      match path.data with
      | '/' :: '/' :: '/' :: _ => 1
      | '/' :: '/' :: _ => 2
      | '/' :: _ => 1
      | _ => 0
    let comps := (splitOnSlash path.data).map String.mk
    let new_comps := comps.foldl (fun acc comp =>
      if comp = "" ∨ comp = "." then acc
      else if comp ≠ ".." ∨ (initial_slashes = 0 ∧ acc = []) ∨ acc.getLast? = some ".." then
        acc ++ [comp]
      else
        acc.dropLast) []
    let joined := String.intercalate "/" new_comps
    let out := String.mk (List.replicate initial_slashes '/') ++ joined
    if out = "" then "." else out

/-- A word character of the include-label grammar, `[A-Za-z0-9_]`. -/
def isWordChar (c : Char) : Bool := c.isAlphanum || c = '_'

/-- `re.match(r"^([A-Za-z0-9_]*)//(.*)$", name)` for newline-free labels.
The first group can only be the maximal word-character prefix, because
`//` cannot occur inside it, so the split is deterministic. -/
def matchIncludeLabel (name : String) : Option (String × String) :=
  let p := name.data.takeWhile isWordChar
  let rest := name.data.drop p.length
  match rest with
  | '/' :: '/' :: tail => some (String.mk p, String.mk tail)
  | _ => Option.none

/-- The immutable value produced by the resolver. -/
structure BuildInclude where
  cell_name : String
  label : String
  path : String
deriving DecidableEq

/-- Python `repr` of the cell-roots dict (the `{!r}` in the unknown-cell
message). -/
def cellRootsStr (cell_roots : List (String × String)) : String :=
  "\x7b" ++ String.intercalate ", "
    (cell_roots.map fun kv => "'" ++ kv.1 ++ "': '" ++ kv.2 ++ "'") ++ "\x7d"

/-- `BuildFileProcessor._resolve_include(name)`: parse the include label,
resolve the cell to a root (empty cell = project root), and build the
`BuildInclude`.  Note the label stored for a non-empty cell is `"@" + name`,
not `name` itself. -/
def resolve_include (cell_roots : List (String × String)) (project_root : String)
    (name : String) : Except String BuildInclude :=
  match matchIncludeLabel name with
  | Option.none =>
    .error ("include_defs argument " ++ name
      ++ " should be in the form of //path or cellname//path")
  | some (cell_name, relative_path) =>
    if cell_name.length > 0 then
      match alGet cell_roots cell_name with
      | Option.none =>
        .error ("include_defs argument " ++ name ++ " references an unknown cell named "
          ++ cell_name ++ " known cells: " ++ cellRootsStr cell_roots)
      | some cell_root =>
        .ok { cell_name := cell_name, label := "@" ++ name,
              path := normpath (joinPath cell_root relative_path) }
    else
      .ok { cell_name := cell_name, label := name,
            path := normpath (joinPath project_root relative_path) }

/-- The `for param in self.required_attrs` loop of
`UserDefinedRule.__call__`: each required name must be bound to a
non-`None` value (`kwargs.get` cannot tell an explicit `None` from an
absent key). -/
def requiredLoop (required : List String) (kwargs : Dict) (bt : String) (rule : Dict) :
    Except String Dict :=
  match required with
  | [] => .ok rule
  | p :: rest =>
    if pyGet kwargs p = .none then
      .error ("Mandatory parameter '" ++ p ++ "' for " ++ bt ++ " was missing")
    else
      requiredLoop rest kwargs bt (alSet rule p (pyGet kwargs p))

/-- The `for param in self.optional_attrs` loop: copy when bound to a
non-`None` value, otherwise omit. -/
def optionalLoop (optional : List String) (kwargs : Dict) (rule : Dict) : Dict :=
  match optional with
  | [] => rule
  | p :: rest =>
    if pyGet kwargs p = .none then optionalLoop rest kwargs rule
    else optionalLoop rest kwargs (alSet rule p (pyGet kwargs p))

/-- The `for k, v in self.attrs.items()` loop: a `None`-or-absent value is
fatal for a mandatory attribute and filled from the default otherwise. -/
def attrsLoop (attrs : List (String × Attribute)) (kwargs : Dict) (bt : String)
    (rule : Dict) : Except String Dict :=
  match attrs with
  | [] => .ok rule
  | (k, a) :: rest =>
    if pyGet kwargs k = .none then
      if a.mandatory then
        .error ("Mandatory parameter '" ++ k ++ "' for " ++ bt ++ " was missing")
      else
        attrsLoop rest kwargs bt (alSet rule k a.default)
    else
      attrsLoop rest kwargs bt (alSet rule k (pyGet kwargs k))

/-- `UserDefinedRule.__call__(**kwargs)` invoked from a build file (the
`isinstance(self.build_env, BuildFileContext)` guard is enforced by the
type of `build_env`; an unset `buck_type` models the `set_name` assert).
Errors return the context as at the raise, which no step mutates before
`add_rule`. -/
def udrCall (u : UserDefinedRule) (kwargs : Dict) (build_env : BuildFileContext) :
    Except String Unit × BuildFileContext :=
  match u.buck_type with
  | Option.none =>
    (.error ("set_name() was never called for rule in " ++ u.label), build_env)
  | some bt =>
    let rule : Dict := [("buck.type", .str bt)]
    let unexpected := (keysOf kwargs).filter (fun k => decide (k ∉ allAttrs u))
    if unexpected ≠ [] then
      (.error ("Unexpected extra parameter(s) '" ++ String.intercalate ", " unexpected
        ++ "' provided for " ++ bt), build_env)
    else
      match requiredLoop u.required_attrs kwargs bt rule with
      | .error e => (.error e, build_env)
      | .ok rule1 =>
        let rule2 := optionalLoop u.optional_attrs kwargs rule1
        match attrsLoop u.attrs kwargs bt rule2 with
        | .error e => (.error e, build_env)
        | .ok rule3 => add_rule rule3 build_env

/-- A top-level binding of a processed module: either a UDR factory object
or any other value. -/
inductive Binding where
  | udr (u : UserDefinedRule)
  | val (v : PyVal)
deriving DecidableEq

/-- A processed module's `__dict__`, in binding order. -/
abbrev Module := List (String × Binding)

/-- The post-`_process` scan of `_process_include`: every top-level binding
whose value is a UDR defined in this very file (label equality) is named
after its binding and added to the context's `user_rules`.  Python mutates
the shared object, so the module binding holds the named UDR as well. -/
def scanUDRs (build_env : IncludeContext) (mod : Module) : IncludeContext × Module :=
  match mod with
  | [] => (build_env, [])
  | (k, b) :: rest =>
    match b with
    | .udr u =>
      if u.label = build_env.label then
        let u1 := setNameU u k
        let env1 := { build_env with user_rules := setAdd build_env.user_rules u1 }
        let r := scanUDRs env1 rest
        (r.1, (k, .udr u1) :: r.2)
      else
        let r := scanUDRs build_env rest
        (r.1, (k, .udr u) :: r.2)
    | _ =>
      let r := scanUDRs build_env rest
      (r.1, (k, b) :: r.2)

/-- The processor state consulted by `_process_include`: the
process-lifetime include cache plus the `enable_user_defined_rules`
switch. -/
structure ProcessorState where
  include_cache : List (String × (IncludeContext × Module))
  enable_user_defined_rules : Bool

/-- `BuildFileProcessor._process_include(build_include, is_implicit)`.
`evalFile` models the construction of the fresh `IncludeContext` plus
`_process` (compiling and executing the file), which runs arbitrary
user code and may itself consult and populate the cache through nested
includes; only successful evaluations are modelled.  On a cache hit the
cached pair is returned unchanged; on a miss the result (after the UDR
naming scan when enabled) is stored under the absolute path. -/
def processInclude
    (evalFile : BuildInclude → Bool → ProcessorState → (IncludeContext × Module) × ProcessorState)
    (bi : BuildInclude) (is_implicit : Bool) (st : ProcessorState) :
    (IncludeContext × Module) × ProcessorState :=
  match alGet st.include_cache bi.path with
  | some cached => (cached, st)
  | Option.none =>
    let r := evalFile bi is_implicit st
    let st1 := r.2
    let pr := if st1.enable_user_defined_rules then scanUDRs r.1.1 r.1.2 else r.1
    (pr, { st1 with include_cache := alSet st1.include_cache bi.path pr })

/-- The `values` transformation of `encode_result`: every `None`-valued
key is dropped from each entry before the JSON encoder (an external
collaborator) runs. -/
def encode_result_values (values : List Dict) : List Dict :=
  values.map (fun value => value.filter (fun kv => decide (kv.2 ≠ PyVal.none)))

/-- A small build-file context used to instantiate witness statements. -/
def sampleEnv : BuildFileContext :=
  { project_root := "/r", base_path := "pkg", path := "/r/pkg/BUCK", dirname := "/r/pkg",
    cell_name := "", allow_empty_globs := true, ignore_paths := [], includes := [],
    used_configs := [], used_env_vars := [], diagnostics := [], user_rules := [],
    rules := [("a", [("name", .str "a"), ("buck.base_path", .str "pkg")])],
    implicit_package_symbols := [] }

/-- A small include context used to instantiate witness statements. -/
def sampleInclude : IncludeContext :=
  { cell_name := "", path := "/r/defs.bzl", label := "//:defs.bzl",
    includes := ["/r/defs.bzl"],
    used_configs := [("sec", [("f", some "v")])],
    used_env_vars := [("HOME", some "/home/u")],
    diagnostics := [], user_rules := [] }

/-- Well-formedness facts that `_validate_attributes` and the
`generated_rules` tables guarantee for every UDR that reaches a call:
every attribute name (implicit or explicit) is a valid Python
identifier, the explicit attribute keys are distinct (they come from a
Python dict), and no explicit attribute shadows an implicit one. -/
def UDRWf (u : UserDefinedRule) : Prop :=
  (∀ k, k ∈ u.required_attrs → VALID_IDENT k = true)
  ∧ (∀ k, k ∈ u.optional_attrs → VALID_IDENT k = true)
  ∧ (∀ k, k ∈ keysOf u.attrs → VALID_IDENT k = true)
  ∧ (keysOf u.attrs).Nodup
  ∧ (∀ k, k ∈ keysOf u.attrs → k ∉ u.required_attrs ∧ k ∉ u.optional_attrs)

/-- A named UDR factory used to instantiate witness statements: one
required implicit attribute (`name`), one optional implicit attribute,
one defaulted explicit attribute and one mandatory explicit attribute. -/
def sampleUDR : UserDefinedRule :=
  { label := "//:r.bzl", buck_type := some "//:r.bzl:MyRule", name := some "MyRule",
    required_attrs := ["name"], optional_attrs := ["licenses"],
    attrs := [("x", { default := .str "d", mandatory := false }),
              ("y", { default := .none, mandatory := true })] }

/-- `sampleEnv` with an empty rules mapping, so a witness insertion
succeeds. -/
def sampleEnv0 : BuildFileContext := { sampleEnv with rules := [] }

/-- A concrete evaluation oracle for witness statements: it builds the
fresh `IncludeContext` of `_process_include` and returns an empty module,
leaving the processor state alone. -/
def sampleEval : BuildInclude → Bool → ProcessorState → (IncludeContext × Module) × ProcessorState :=
  fun bi _ st =>
    (({ cell_name := bi.cell_name, path := bi.path, label := bi.label,
        includes := [bi.path], used_configs := [], used_env_vars := [],
        diagnostics := [], user_rules := [] }, []), st)

/-- A fresh processor state (empty include cache) for witness statements. -/
def sampleState : ProcessorState :=
  { include_cache := [], enable_user_defined_rules := true }

/- ------------------------------------------------------------------ -/
/- Association-list lemmas shared by the claim proofs.                 -/
/- ------------------------------------------------------------------ -/

theorem alGet_alSet_self {κ α : Type} [DecidableEq κ] (d : List (κ × α)) (k : κ) (v : α) :
    alGet (alSet d k v) k = some v := by
  induction d with
  | nil => simp [alGet, alSet]
  | cons hd tl ih =>
    by_cases h : hd.1 = k
    · simp [alGet, alSet, h]
    · simpa [alGet, alSet, h] using ih

theorem alGet_alSet_ne {κ α : Type} [DecidableEq κ] (d : List (κ × α)) (k k' : κ) (v : α)
    (h : k' ≠ k) : alGet (alSet d k' v) k = alGet d k := by
  have h3 : k ≠ k' := Ne.symm h
  induction d with
  | nil => simp [alGet, alSet, h]
  | cons hd tl ih =>
    by_cases h1 : hd.1 = k'
    · have h2 : hd.1 ≠ k := by rw [h1]; exact h
      simp [alGet, alSet, h1, h2, h]
    · by_cases h2 : hd.1 = k
      · simp [alGet, alSet, h1, h2, h3]
      · simp [alGet, alSet, h1, h2, ih]

theorem alGet_append_of_none {κ α : Type} [DecidableEq κ] (d e : List (κ × α)) (k : κ)
    (h : alGet d k = Option.none) : alGet (d ++ e) k = alGet e k := by
  induction d with
  | nil => simp
  | cons hd tl ih =>
    by_cases h1 : hd.1 = k
    · simp [alGet, h1] at h
    · simp [alGet, h1] at h ⊢
      exact ih h

theorem alSet_of_none {κ α : Type} [DecidableEq κ] (d : List (κ × α)) (k : κ) (v : α)
    (h : alGet d k = Option.none) : alSet d k v = d ++ [(k, v)] := by
  induction d with
  | nil => simp [alSet]
  | cons hd tl ih =>
    by_cases h1 : hd.1 = k
    · simp [alGet, h1] at h
    · simp [alGet, h1] at h
      simp [alSet, h1, ih h]

theorem ucGet_ucSet_self (uc : UsedConfigs) (sect field : String) (v : Option String) :
    ucGet (ucSet uc sect field v) sect field = some v := by
  cases h : alGet uc sect with
  | none =>
    simp only [ucSet, h, ucGet]
    rw [alGet_append_of_none _ _ _ h]
    simp [alGet, alGet_alSet_self]
  | some inner =>
    simp only [ucSet, h, ucGet]
    rw [alGet_alSet_self]
    simp [alGet_alSet_self]

theorem strContains_prefix (a b : String) : strContains (a ++ b) a = true := by
  simp only [strContains, decide_eq_true_iff]
  exact ⟨[], b.data, by simp [String.data_append]⟩

theorem strContains_of_data (hay needle : String) (t : List Char)
    (h : hay.data = needle.data ++ t) : strContains hay needle = true := by
  simp only [strContains, decide_eq_true_iff]
  exact ⟨[], t, by simp [h]⟩

theorem strContains_of_parts (hay a : String) (x y : List Char)
    (h : hay.data = x ++ a.data ++ y) : strContains hay a = true := by
  simp only [strContains, decide_eq_true_iff]
  exact ⟨x, y, by simp [h]⟩

theorem alGet_of_not_mem_keys {κ α : Type} [DecidableEq κ] (d : List (κ × α)) (k : κ)
    (h : k ∉ keysOf d) : alGet d k = Option.none := by
  induction d with
  | nil => simp [alGet]
  | cons hd tl ih =>
    simp only [keysOf, List.map_cons, List.mem_cons, not_or] at h
    have h1 : hd.1 ≠ k := fun hh => h.1 hh.symm
    simp only [alGet, h1, if_false]
    exact ih h.2

theorem alGet_alUpdate {κ α : Type} [DecidableEq κ] (d s : List (κ × α)) (k : κ)
    (hnodup : (keysOf s).Nodup) :
    alGet (alUpdate d s) k = alOr (alGet s k) (alGet d k) := by
  induction s generalizing d with
  | nil => simp [alUpdate, alGet, alOr]
  | cons hd tl ih =>
    simp only [keysOf, List.map_cons, List.nodup_cons] at hnodup
    have hstep : alUpdate d (hd :: tl) = alUpdate (alSet d hd.1 hd.2) tl := rfl
    rw [hstep, ih _ hnodup.2]
    by_cases hk : hd.1 = k
    · subst hk
      have htl : alGet tl hd.1 = Option.none :=
        alGet_of_not_mem_keys _ _ (by simpa [keysOf] using hnodup.1)
      simp [alGet, htl, alGet_alSet_self, alOr]
    · rw [alGet_alSet_ne _ _ _ _ hk]
      simp [alGet, hk]

theorem mem_setUnion {α : Type} [DecidableEq α] (a b : List α) (x : α) :
    x ∈ setUnion a b ↔ x ∈ a ∨ x ∈ b := by
  simp only [setUnion, List.mem_append, List.mem_filter, decide_eq_true_iff]
  tauto

theorem alErase_cons {κ α : Type} [DecidableEq κ] (hd : κ × α) (tl : List (κ × α)) (k : κ) :
    alErase (hd :: tl) k = if hd.1 = k then alErase tl k else hd :: alErase tl k := by
  by_cases h : hd.1 = k <;> simp [alErase, List.filter_cons, h]

theorem alGet_alErase_self {κ α : Type} [DecidableEq κ] (d : List (κ × α)) (k : κ) :
    alGet (alErase d k) k = Option.none := by
  induction d with
  | nil => rfl
  | cons hd tl ih =>
    rw [alErase_cons]
    by_cases h : hd.1 = k
    · rw [if_pos h]; exact ih
    · rw [if_neg h]
      simp only [alGet, if_neg h]
      exact ih

theorem alGet_alErase_ne {κ α : Type} [DecidableEq κ] (d : List (κ × α)) (k k' : κ)
    (h : k' ≠ k) : alGet (alErase d k) k' = alGet d k' := by
  induction d with
  | nil => rfl
  | cons hd tl ih =>
    rw [alErase_cons]
    by_cases h1 : hd.1 = k
    · rw [if_pos h1, ih]
      have h2 : hd.1 ≠ k' := by rw [h1]; exact fun hh => h hh.symm
      simp [alGet, h2]
    · rw [if_neg h1]
      by_cases h2 : hd.1 = k' <;> simp [alGet, h2, ih]

theorem keys_filter_alErase (l : List (String × PyVal)) (k : String) (p : String → Bool)
    (hp : p k = false) :
    (keysOf (alErase l k)).filter p = (keysOf l).filter p := by
  induction l with
  | nil => rfl
  | cons hd tl ih =>
    rw [alErase_cons]
    by_cases h : hd.1 = k
    · rw [if_pos h, ih]
      simp [keysOf, List.map_cons, List.filter_cons, h, hp]
    · rw [if_neg h]
      simp only [keysOf, List.map_cons, List.filter_cons] at ih ⊢
      rw [ih]

theorem VALID_IDENT_ne (k : String) (h : VALID_IDENT k = true) :
    k ≠ "buck.type" ∧ k ≠ "buck.base_path" := by
  constructor <;> (intro he; rw [he] at h; exact absurd h (by decide))

theorem requiredLoop_error_of_missing (kwargs : Dict) (bt : String) (p : String)
    (hmiss : pyGet kwargs p = .none) :
    ∀ (required : List String) (rule : Dict), p ∈ required →
      ∃ m, requiredLoop required kwargs bt rule = .error m := by
  intro required
  induction required with
  | nil => intro rule h; cases h
  | cons q rest ih =>
    intro rule hmem
    by_cases hq : pyGet kwargs q = .none
    · exact ⟨"Mandatory parameter '" ++ q ++ "' for " ++ bt ++ " was missing",
        by simp [requiredLoop, hq]⟩
    · rcases List.mem_cons.mp hmem with h | h
      · exact absurd (h ▸ hmiss) hq
      · obtain ⟨m, hm⟩ := ih (alSet rule q (pyGet kwargs q)) h
        exact ⟨m, by simp [requiredLoop, hq, hm]⟩

theorem requiredLoop_preserve (kwargs : Dict) (bt : String) (k : String) :
    ∀ (required : List String) (rule r : Dict),
      requiredLoop required kwargs bt rule = .ok r → k ∉ required →
      alGet r k = alGet rule k := by
  intro required
  induction required with
  | nil =>
    intro rule r h _
    simp only [requiredLoop, Except.ok.injEq] at h
    rw [h]
  | cons q rest ih =>
    intro rule r h hk
    simp only [requiredLoop] at h
    by_cases hq : pyGet kwargs q = .none
    · rw [if_pos hq] at h; simp at h
    · rw [if_neg hq] at h
      have hne : q ≠ k := fun hh => hk (hh ▸ List.mem_cons_self q rest)
      rw [ih _ _ h (fun hh => hk (List.mem_cons_of_mem q hh))]
      exact alGet_alSet_ne _ _ _ _ hne

theorem requiredLoop_ok_none_preserve (kwargs : Dict) (bt : String) (k : String)
    (hmiss : pyGet kwargs k = .none) :
    ∀ (required : List String) (rule r : Dict),
      requiredLoop required kwargs bt rule = .ok r →
      alGet r k = alGet rule k := by
  intro required
  induction required with
  | nil =>
    intro rule r h
    simp only [requiredLoop, Except.ok.injEq] at h
    rw [h]
  | cons q rest ih =>
    intro rule r h
    simp only [requiredLoop] at h
    by_cases hq : pyGet kwargs q = .none
    · rw [if_pos hq] at h; simp at h
    · rw [if_neg hq] at h
      have hne : q ≠ k := fun hh => hq (hh ▸ hmiss)
      rw [ih _ _ h]
      exact alGet_alSet_ne _ _ _ _ hne

theorem requiredLoop_ok_of_present (kwargs : Dict) (bt : String) :
    ∀ (required : List String) (rule : Dict),
      (∀ p, p ∈ required → pyGet kwargs p ≠ .none) →
      ∃ r, requiredLoop required kwargs bt rule = .ok r := by
  intro required
  induction required with
  | nil => intro rule _; exact ⟨rule, rfl⟩
  | cons q rest ih =>
    intro rule hall
    have hq : pyGet kwargs q ≠ .none := hall q (List.mem_cons_self q rest)
    obtain ⟨r, hr⟩ := ih (alSet rule q (pyGet kwargs q))
      (fun p hp => hall p (List.mem_cons_of_mem q hp))
    exact ⟨r, by simp [requiredLoop, hq, hr]⟩

theorem requiredLoop_error_first (kwargs : Dict) (bt : String) (k : String)
    (hmiss : pyGet kwargs k = .none) :
    ∀ (required : List String) (rule : Dict), k ∈ required →
      (∀ p, p ∈ required → p ≠ k → pyGet kwargs p ≠ .none) →
      requiredLoop required kwargs bt rule
        = .error ("Mandatory parameter '" ++ k ++ "' for " ++ bt ++ " was missing") := by
  intro required
  induction required with
  | nil => intro rule h _; cases h
  | cons q rest ih =>
    intro rule hmem hothers
    by_cases hqk : q = k
    · subst hqk
      simp [requiredLoop, hmiss]
    · have hq : pyGet kwargs q ≠ .none := hothers q (List.mem_cons_self q rest) hqk
      have hmem2 : k ∈ rest := by
        rcases List.mem_cons.mp hmem with h | h
        · exact absurd h.symm hqk
        · exact h
      simp only [requiredLoop, if_neg hq]
      exact ih _ hmem2 (fun p hp hpk => hothers p (List.mem_cons_of_mem q hp) hpk)

theorem optionalLoop_preserve (kwargs : Dict) (k : String) :
    ∀ (optional : List String) (rule : Dict), k ∉ optional →
      alGet (optionalLoop optional kwargs rule) k = alGet rule k := by
  intro optional
  induction optional with
  | nil => intro rule _; rfl
  | cons q rest ih =>
    intro rule hk
    have hne : q ≠ k := fun hh => hk (hh ▸ List.mem_cons_self q rest)
    have hrest : k ∉ rest := fun hh => hk (List.mem_cons_of_mem q hh)
    by_cases hq : pyGet kwargs q = .none
    · simp only [optionalLoop, if_pos hq]
      exact ih rule hrest
    · simp only [optionalLoop, if_neg hq]
      rw [ih _ hrest]
      exact alGet_alSet_ne _ _ _ _ hne

theorem optionalLoop_none_preserve (kwargs : Dict) (k : String)
    (hmiss : pyGet kwargs k = .none) :
    ∀ (optional : List String) (rule : Dict),
      alGet (optionalLoop optional kwargs rule) k = alGet rule k := by
  intro optional
  induction optional with
  | nil => intro rule; rfl
  | cons q rest ih =>
    intro rule
    by_cases hq : pyGet kwargs q = .none
    · simp only [optionalLoop, if_pos hq]
      exact ih rule
    · simp only [optionalLoop, if_neg hq]
      have hne : q ≠ k := fun hh => hq (hh ▸ hmiss)
      rw [ih _]
      exact alGet_alSet_ne _ _ _ _ hne

theorem attrsLoop_preserve (kwargs : Dict) (bt : String) (k : String) :
    ∀ (attrs : List (String × Attribute)) (rule r : Dict),
      attrsLoop attrs kwargs bt rule = .ok r → k ∉ keysOf attrs →
      alGet r k = alGet rule k := by
  intro attrs
  induction attrs with
  | nil =>
    intro rule r h _
    simp only [attrsLoop, Except.ok.injEq] at h
    rw [h]
  | cons hd tl ih =>
    obtain ⟨k1, a1⟩ := hd
    intro rule r h hk
    have hne : k1 ≠ k := fun hh => hk (hh ▸ List.mem_cons_self k1 (keysOf tl))
    have hrest : k ∉ keysOf tl := fun hh => hk (List.mem_cons_of_mem k1 hh)
    simp only [attrsLoop] at h
    by_cases hq : pyGet kwargs k1 = .none
    · rw [if_pos hq] at h
      by_cases hm : a1.mandatory = true
      · rw [if_pos hm] at h; simp at h
      · rw [if_neg hm] at h
        rw [ih _ _ h hrest]
        exact alGet_alSet_ne _ _ _ _ hne
    · rw [if_neg hq] at h
      rw [ih _ _ h hrest]
      exact alGet_alSet_ne _ _ _ _ hne

theorem attrsLoop_error_of_mandatory (kwargs : Dict) (bt : String) (k : String) (a : Attribute)
    (hmiss : pyGet kwargs k = .none) (hmand : a.mandatory = true) :
    ∀ (attrs : List (String × Attribute)) (rule : Dict), (k, a) ∈ attrs →
      ∃ m, attrsLoop attrs kwargs bt rule = .error m := by
  intro attrs
  induction attrs with
  | nil => intro rule h; cases h
  | cons hd tl ih =>
    obtain ⟨k1, a1⟩ := hd
    intro rule hmem
    by_cases hq : pyGet kwargs k1 = .none
    · by_cases hm : a1.mandatory = true
      · exact ⟨"Mandatory parameter '" ++ k1 ++ "' for " ++ bt ++ " was missing",
          by simp [attrsLoop, hq, hm]⟩
      · rcases List.mem_cons.mp hmem with heq | hmem2
        · injection heq with h1 h2
          subst h2
          exact absurd hmand hm
        · obtain ⟨m, hmr⟩ := ih (alSet rule k1 a1.default) hmem2
          exact ⟨m, by simp [attrsLoop, hq, hm, hmr]⟩
    · rcases List.mem_cons.mp hmem with heq | hmem2
      · injection heq with h1 h2
        subst h1
        exact absurd hmiss hq
      · obtain ⟨m, hmr⟩ := ih (alSet rule k1 (pyGet kwargs k1)) hmem2
        exact ⟨m, by simp [attrsLoop, hq, hmr]⟩

theorem attrsLoop_get (kwargs : Dict) (bt : String) (k : String) (a : Attribute) :
    ∀ (attrs : List (String × Attribute)) (rule r : Dict),
      (keysOf attrs).Nodup → (k, a) ∈ attrs →
      attrsLoop attrs kwargs bt rule = .ok r →
      alGet r k = some (if pyGet kwargs k = .none then a.default else pyGet kwargs k) := by
  intro attrs
  induction attrs with
  | nil => intro rule r _ hmem _; cases hmem
  | cons hd tl ih =>
    obtain ⟨k1, a1⟩ := hd
    intro rule r hnd hmem hloop
    simp only [keysOf, List.map_cons, List.nodup_cons] at hnd
    rcases List.mem_cons.mp hmem with heq | hmem2
    · injection heq with h1 h2
      subst h1
      subst h2
      simp only [attrsLoop] at hloop
      by_cases hq : pyGet kwargs k = .none
      · rw [if_pos hq] at hloop
        by_cases hm : a.mandatory = true
        · rw [if_pos hm] at hloop; simp at hloop
        · rw [if_neg hm] at hloop
          rw [attrsLoop_preserve kwargs bt k tl _ _ hloop hnd.1]
          rw [alGet_alSet_self, if_pos hq]
      · rw [if_neg hq] at hloop
        rw [attrsLoop_preserve kwargs bt k tl _ _ hloop hnd.1]
        rw [alGet_alSet_self, if_neg hq]
    · have hkk : k ∈ keysOf tl := List.mem_map_of_mem Prod.fst hmem2
      simp only [attrsLoop] at hloop
      by_cases hq : pyGet kwargs k1 = .none
      · by_cases hm : a1.mandatory = true
        · rw [if_pos hq, if_pos hm] at hloop; simp at hloop
        · rw [if_pos hq, if_neg hm] at hloop
          exact ih _ _ hnd.2 hmem2 hloop
      · rw [if_neg hq] at hloop
        exact ih _ _ hnd.2 hmem2 hloop

theorem attrsLoop_error_first (kwargs : Dict) (bt : String) (k : String) (a : Attribute)
    (hmiss : pyGet kwargs k = .none) (hmand : a.mandatory = true) :
    ∀ (attrs : List (String × Attribute)) (rule : Dict), (k, a) ∈ attrs →
      (∀ k2 a2, (k2, a2) ∈ attrs → k2 ≠ k → a2.mandatory = true → pyGet kwargs k2 ≠ .none) →
      attrsLoop attrs kwargs bt rule
        = .error ("Mandatory parameter '" ++ k ++ "' for " ++ bt ++ " was missing") := by
  intro attrs
  induction attrs with
  | nil => intro rule h _; cases h
  | cons hd tl ih =>
    obtain ⟨k1, a1⟩ := hd
    intro rule hmem hothers
    by_cases hk1 : k1 = k
    · subst hk1
      by_cases hm1 : a1.mandatory = true
      · simp [attrsLoop, hmiss, hm1]
      · rcases List.mem_cons.mp hmem with heq | hmem2
        · injection heq with h1 h2
          subst h2
          exact absurd hmand hm1
        · simp only [attrsLoop, if_pos hmiss, if_neg hm1]
          exact ih _ hmem2 (fun k2 a2 h2 => hothers k2 a2 (List.mem_cons_of_mem _ h2))
    · have hmem2 : (k, a) ∈ tl := by
        rcases List.mem_cons.mp hmem with heq | h
        · injection heq with h1 h2
          exact absurd h1.symm hk1
        · exact h
      by_cases hq : pyGet kwargs k1 = .none
      · by_cases hm1 : a1.mandatory = true
        · exact absurd hq (hothers k1 a1 (List.mem_cons_self _ _) hk1 hm1)
        · simp only [attrsLoop, if_pos hq, if_neg hm1]
          exact ih _ hmem2 (fun k2 a2 h2 => hothers k2 a2 (List.mem_cons_of_mem _ h2))
      · simp only [attrsLoop, if_neg hq]
        exact ih _ hmem2 (fun k2 a2 h2 => hothers k2 a2 (List.mem_cons_of_mem _ h2))

theorem requiredLoop_congr (bt : String) (kw1 kw2 : Dict)
    (h : ∀ p, pyGet kw1 p = pyGet kw2 p) :
    ∀ (required : List String) (rule : Dict),
      requiredLoop required kw1 bt rule = requiredLoop required kw2 bt rule := by
  intro required
  induction required with
  | nil => intro rule; rfl
  | cons q rest ih =>
    intro rule
    simp only [requiredLoop, h q]
    by_cases hq : pyGet kw2 q = .none
    · simp [hq]
    · simp [hq, ih]

theorem optionalLoop_congr (kw1 kw2 : Dict)
    (h : ∀ p, pyGet kw1 p = pyGet kw2 p) :
    ∀ (optional : List String) (rule : Dict),
      optionalLoop optional kw1 rule = optionalLoop optional kw2 rule := by
  intro optional
  induction optional with
  | nil => intro rule; rfl
  | cons q rest ih =>
    intro rule
    simp only [optionalLoop, h q]
    by_cases hq : pyGet kw2 q = .none
    · simp [hq, ih]
    · simp [hq, ih]

theorem attrsLoop_congr (bt : String) (kw1 kw2 : Dict)
    (h : ∀ p, pyGet kw1 p = pyGet kw2 p) :
    ∀ (attrs : List (String × Attribute)) (rule : Dict),
      attrsLoop attrs kw1 bt rule = attrsLoop attrs kw2 bt rule := by
  intro attrs
  induction attrs with
  | nil => intro rule; rfl
  | cons hd tl ih =>
    obtain ⟨k1, a1⟩ := hd
    intro rule
    simp only [attrsLoop, h k1]
    by_cases hq : pyGet kw2 k1 = .none
    · by_cases hm : a1.mandatory = true
      · simp [hq, hm]
      · simp [hq, hm, ih]
    · simp [hq, ih]

theorem add_rule_ok (rule : Dict) (env env' : BuildFileContext)
    (h : add_rule rule env = (.ok (), env')) :
    ∃ nm, alGet rule "name" = some (.str nm)
      ∧ alGet env.rules nm = Option.none
      ∧ env' = { env with
          rules := env.rules ++ [(nm, alSet rule "buck.base_path" (.str env.base_path))] } := by
  simp only [add_rule] at h
  by_cases h1 : hasKey rule "name" = false
  · rw [if_pos h1] at h; simp at h
  · rw [if_neg h1] at h
    cases hv : pyGet rule "name" with
    | str nm =>
      rw [hv] at h
      cases hd : alGet env.rules nm with
      | some ex => simp only [hd] at h; simp at h
      | none =>
        simp only [hd] at h
        rw [Prod.mk.injEq] at h
        refine ⟨nm, ?_, hd, ?_⟩
        · cases ha : alGet rule "name" with
          | none => rw [pyGet, ha] at hv; simp at hv
          | some v =>
            rw [pyGet, ha] at hv
            simp only [Option.getD_some] at hv
            rw [hv]
        · rw [← h.2, alSet_of_none _ _ _ hd]
    | none => rw [hv] at h; simp at h
    | bool b => rw [hv] at h; simp at h
    | int n => rw [hv] at h; simp at h
    | list xs => rw [hv] at h; simp at h

theorem udrCall_ok_cases (u : UserDefinedRule) (kwargs : Dict) (env env' : BuildFileContext)
    (bt : String) (hbt : u.buck_type = some bt)
    (hok : udrCall u kwargs env = (.ok (), env')) :
    ∃ rule1 rule3 nm,
      requiredLoop u.required_attrs kwargs bt [("buck.type", PyVal.str bt)] = .ok rule1
      ∧ attrsLoop u.attrs kwargs bt (optionalLoop u.optional_attrs kwargs rule1) = .ok rule3
      ∧ alGet rule3 "name" = some (.str nm)
      ∧ alGet env.rules nm = Option.none
      ∧ env' = { env with
          rules := env.rules ++ [(nm, alSet rule3 "buck.base_path" (.str env.base_path))] } := by
  simp only [udrCall, hbt] at hok
  by_cases hne : (keysOf kwargs).filter (fun k => decide (k ∉ allAttrs u)) ≠ []
  · rw [if_pos hne] at hok; simp at hok
  · rw [if_neg hne] at hok
    cases hr : requiredLoop u.required_attrs kwargs bt [("buck.type", PyVal.str bt)] with
    | error e => simp only [hr] at hok; simp at hok
    | ok rule1 =>
      simp only [hr] at hok
      cases ha : attrsLoop u.attrs kwargs bt (optionalLoop u.optional_attrs kwargs rule1) with
      | error e => simp only [ha] at hok; simp at hok
      | ok rule3 =>
        simp only [ha] at hok
        obtain ⟨nm, hname, hfresh, henv⟩ := add_rule_ok rule3 env env' hok
        exact ⟨rule1, rule3, nm, rfl, ha, hname, hfresh, henv⟩

/- ------------------------------------------------------------------ -/
/- Claim theorems.                                                     -/
/- ------------------------------------------------------------------ -/

/-- C1: inserting a rule record via `add_rule` whose name is already a key
of the context's rules mapping produces a fatal error whose message
contains `Duplicate rule definition '<name>'`, and the context — in
particular its rules mapping — is left exactly as it was. -/
theorem claim1_add_rule_duplicate (rule : Dict) (env : BuildFileContext)
    (nm : String) (ex : Dict)
    (hname : alGet rule "name" = some (.str nm))
    (hdup : alGet env.rules nm = some ex) :
    ∃ msg, add_rule rule env = (Except.error msg, env)
      ∧ strContains msg ("Duplicate rule definition '" ++ nm ++ "'") = true
      ∧ (add_rule rule env).2.rules = env.rules := by
  refine ⟨"Duplicate rule definition '" ++ nm ++ "' found.  Found "
      ++ dictStr rule ++ " and " ++ dictStr ex, ?_, ?_, ?_⟩
  · simp [add_rule, hasKey, hname, pyGet, hdup, String.append_assoc]
  · refine strContains_of_data _ _
      ((" found.  Found " ++ dictStr rule ++ " and " ++ dictStr ex).data) ?_
    have hq : ("' found.  Found ").data = '\'' :: (" found.  Found ").data := rfl
    have hq2 : ("'" : String).data = ['\''] := rfl
    simp [String.data_append, hq, hq2]
  · simp [add_rule, hasKey, hname, pyGet, hdup]

/-- Witness for C1 at a concrete duplicate insertion. -/
theorem claim1_witness :
    ∃ msg, add_rule [("name", PyVal.str "a")] sampleEnv = (Except.error msg, sampleEnv)
      ∧ strContains msg ("Duplicate rule definition '" ++ "a" ++ "'") = true
      ∧ (add_rule [("name", PyVal.str "a")] sampleEnv).2.rules = sampleEnv.rules :=
  claim1_add_rule_duplicate [("name", PyVal.str "a")] sampleEnv "a"
    [("name", .str "a"), ("buck.base_path", .str "pkg")] rfl rfl

/-- C2: after `read_config(section, field, default)` the `used_configs`
entry for the pair equals exactly the orchestrator-supplied value (with
the `None` sentinel recorded when the key is unknown), and the call
returns the supplied value when present and `default` otherwise. -/
theorem claim2_read_config (configs : List ((String × String) × String)) (uc : UsedConfigs)
    (sect field : String) (default : PyVal) :
    ucGet (read_config configs uc sect field default).2 sect field
        = some (alGet configs (sect, field))
    ∧ (read_config configs uc sect field default).1
        = (match alGet configs (sect, field) with
           | some v => PyVal.str v
           | Option.none => default) := by
  cases h : alGet configs (sect, field) <;>
    simp [read_config, h, ucGet_ucSet_self]

/-- C8: a reported `(Linux, x86_64)` platform (any letter case) yields
`os.is_linux` and `arch.is_x86_64` with every other flag false, and the
`amd64`/`arm64` machine strings alias `x86_64`/`aarch64` exactly. -/
theorem claim8_host_info :
    (∀ s m : String, lowerStr s = "linux" → lowerStr m = "x86_64" →
      host_info s m =
        { os := { is_linux := true, is_macos := false, is_windows := false,
                  is_freebsd := false, is_unknown := false },
          arch := { is_aarch64 := false, is_arm := false, is_armeb := false,
                    is_i386 := false, is_mips := false, is_mips64 := false,
                    is_mipsel := false, is_mipsel64 := false, is_powerpc := false,
                    is_ppc64 := false, is_unknown := false, is_x86_64 := true } })
    ∧ (∀ s m m' : String, lowerStr m = "amd64" → lowerStr m' = "x86_64" →
        (host_info s m).arch = (host_info s m').arch)
    ∧ (∀ s m m' : String, lowerStr m = "arm64" → lowerStr m' = "aarch64" →
        (host_info s m).arch = (host_info s m').arch) := by
  refine ⟨?_, ?_, ?_⟩
  · intro s m hs hm
    simp [host_info, hs, hm, supported_oses, supported_archs, alGet]
  · intro s m m' hm hm'
    simp [host_info, hm, hm', supported_archs, alGet]
  · intro s m m' hm hm'
    simp [host_info, hm, hm', supported_archs, alGet]

/-- Witness for C8 at the concrete reported platforms. -/
theorem claim8_witness :
    host_info "Linux" "x86_64" =
      { os := { is_linux := true, is_macos := false, is_windows := false,
                is_freebsd := false, is_unknown := false },
        arch := { is_aarch64 := false, is_arm := false, is_armeb := false,
                  is_i386 := false, is_mips := false, is_mips64 := false,
                  is_mipsel := false, is_mipsel64 := false, is_powerpc := false,
                  is_ppc64 := false, is_unknown := false, is_x86_64 := true } }
    ∧ (host_info "Linux" "AMD64").arch = (host_info "Linux" "x86_64").arch
    ∧ (host_info "Darwin" "arm64").arch = (host_info "Darwin" "aarch64").arch :=
  ⟨claim8_host_info.1 "Linux" "x86_64" (by decide) (by decide),
   claim8_host_info.2.1 "Linux" "AMD64" "x86_64" (by decide) (by decide),
   claim8_host_info.2.2 "Darwin" "arm64" "aarch64" (by decide) (by decide)⟩

/-- C10: `encode_result` drops every `None`-valued key from each entry of
the values list: no encoded entry maps any key to `None`, and each output
entry holds exactly the non-`None` pairs of the corresponding input. -/
theorem claim10_encode_strips_none (values : List Dict) :
    (∀ d, d ∈ encode_result_values values → ∀ k, (k, PyVal.none) ∉ d)
    ∧ (∀ (i : Nat) (d : Dict), values[i]? = some d →
        ∃ d', (encode_result_values values)[i]? = some d'
          ∧ ∀ k v, (k, v) ∈ d' ↔ ((k, v) ∈ d ∧ v ≠ PyVal.none)) := by
  constructor
  · intro d hd k hk
    simp only [encode_result_values, List.mem_map] at hd
    obtain ⟨src, _, rfl⟩ := hd
    have := List.of_mem_filter hk
    simp at this
  · intro i d hd
    refine ⟨d.filter (fun kv => decide (kv.2 ≠ PyVal.none)), ?_, ?_⟩
    · simp [encode_result_values, hd]
    · intro k v
      simp [List.mem_filter]

/-- Witness for C10 on a record carrying a `None`-valued key. -/
theorem claim10_witness :
    ∃ d', (encode_result_values [[("x", PyVal.none), ("name", PyVal.str "n")]])[0]?
        = some d'
      ∧ ∀ k v, (k, v) ∈ d' ↔
          ((k, v) ∈ [("x", PyVal.none), ("name", PyVal.str "n")] ∧ v ≠ PyVal.none) :=
  (claim10_encode_strips_none [[("x", PyVal.none), ("name", PyVal.str "n")]]).2 0
    [("x", PyVal.none), ("name", PyVal.str "n")] rfl

/-- C3: `process_include` is idempotent per absolute path within one
worker lifetime — after any first call, every later call whose
`BuildInclude` shares the absolute path (even under a different
label/cell spelling, the cache being keyed only on `path`; whatever
evaluation behaviour it would have, i.e. without re-evaluating the file,
and whatever its `is_implicit` flag) returns exactly the
`(context, module)` pair the first call stored, and leaves the processor
state untouched. -/
theorem claim3_process_include_idempotent
    (evalFile eval2 : BuildInclude → Bool → ProcessorState → (IncludeContext × Module) × ProcessorState)
    (bi bi2 : BuildInclude) (ii ii2 : Bool) (st : ProcessorState)
    (hpath : bi2.path = bi.path) :
    processInclude eval2 bi2 ii2 (processInclude evalFile bi ii st).2
      = ((processInclude evalFile bi ii st).1, (processInclude evalFile bi ii st).2) := by
  have key : alGet (processInclude evalFile bi ii st).2.include_cache bi.path
      = some (processInclude evalFile bi ii st).1 := by
    cases h : alGet st.include_cache bi.path with
    | some cached => simp [processInclude, h]
    | none => simp [processInclude, h, alGet_alSet_self]
  obtain ⟨pr, st1, hE⟩ : ∃ pr st1, processInclude evalFile bi ii st = (pr, st1) :=
    ⟨_, _, rfl⟩
  rw [hE] at key ⊢
  simp [processInclude, hpath, key]

/-- Witness for C3: a second lookup through a different label spelling of
the same absolute path returns the stored pair and leaves the state
unchanged. -/
theorem claim3_witness :
    (({ cell_name := "", label := "foo//defs.bzl", path := "/cells/foo/defs.bzl" } : BuildInclude).path
        = ({ cell_name := "foo", label := "@foo//defs.bzl", path := "/cells/foo/defs.bzl" } : BuildInclude).path)
    ∧ processInclude sampleEval
        { cell_name := "", label := "foo//defs.bzl", path := "/cells/foo/defs.bzl" } false
        (processInclude sampleEval
          { cell_name := "foo", label := "@foo//defs.bzl", path := "/cells/foo/defs.bzl" }
          true sampleState).2
      = ((processInclude sampleEval
            { cell_name := "foo", label := "@foo//defs.bzl", path := "/cells/foo/defs.bzl" }
            true sampleState).1,
         (processInclude sampleEval
            { cell_name := "foo", label := "@foo//defs.bzl", path := "/cells/foo/defs.bzl" }
            true sampleState).2) :=
  ⟨rfl, claim3_process_include_idempotent sampleEval sampleEval
    { cell_name := "foo", label := "@foo//defs.bzl", path := "/cells/foo/defs.bzl" }
    { cell_name := "", label := "foo//defs.bzl", path := "/cells/foo/defs.bzl" }
    true false sampleState rfl⟩

/-- The empty-glob message names the include patterns, the exclude
patterns and the dotfiles flag. -/
theorem globEmptyMsg_names (inc exc : List String) (dot : Bool) :
    strContains (globEmptyMsg inc exc dot) (pyStrListStr inc) = true
    ∧ strContains (globEmptyMsg inc exc dot) (pyStrListStr exc) = true
    ∧ strContains (globEmptyMsg inc exc dot) (pyBoolStr dot) = true := by
  refine ⟨?_, ?_, ?_⟩
  · apply strContains_of_parts (globEmptyMsg inc exc dot) (pyStrListStr inc)
      (("glob(includes=").data)
      ((", excludes=" ++ pyStrListStr exc ++ ", include_dotfiles=" ++ pyBoolStr dot
        ++ ") returned no results.  (allow_empty_globs is set to false in the Buck configuration)").data)
    simp [globEmptyMsg, String.data_append]
  · apply strContains_of_parts (globEmptyMsg inc exc dot) (pyStrListStr exc)
      (("glob(includes=" ++ pyStrListStr inc ++ ", excludes=").data)
      ((", include_dotfiles=" ++ pyBoolStr dot
        ++ ") returned no results.  (allow_empty_globs is set to false in the Buck configuration)").data)
    simp [globEmptyMsg, String.data_append]
  · apply strContains_of_parts (globEmptyMsg inc exc dot) (pyBoolStr dot)
      (("glob(includes=" ++ pyStrListStr inc ++ ", excludes=" ++ pyStrListStr exc
        ++ ", include_dotfiles=").data)
      ((") returned no results.  (allow_empty_globs is set to false in the Buck configuration)").data)
    simp [globEmptyMsg, String.data_append]

/-- C5: when the computed glob result set is empty (the empty-includes
short circuit included) and the context forbids empty globs, `glob`
raises a fatal error naming the include patterns, the exclude patterns
and the `include_dotfiles` flag; when empty globs are allowed, the empty
result is returned normally. -/
theorem claim5_glob_empty (includes : List String) (excludesArg : Option (List String))
    (dot : Bool) (env : GlobEnv) (sb : Option String)
    (hrec : ¬(env.dirname = env.project_root ∧ includes.any isRecursiveGlob = true))
    (hempty : globResults env includes (excludesArg.getD []) dot (sb.getD env.dirname) = []) :
    (env.allow_empty_globs = false →
      ∃ msg, glob includes excludesArg dot env sb = .error msg
        ∧ strContains msg (pyStrListStr includes) = true
        ∧ strContains msg (pyStrListStr (excludesArg.getD [])) = true
        ∧ strContains msg (pyBoolStr dot) = true)
    ∧ (env.allow_empty_globs = true → glob includes excludesArg dot env sb = .ok []) := by
  constructor
  · intro hflag
    refine ⟨globEmptyMsg includes (excludesArg.getD []) dot, ?_,
      (globEmptyMsg_names includes (excludesArg.getD []) dot).1,
      (globEmptyMsg_names includes (excludesArg.getD []) dot).2.1,
      (globEmptyMsg_names includes (excludesArg.getD []) dot).2.2⟩
    simp only [glob]
    rw [if_neg hrec, if_pos (And.intro hflag hempty)]
  · intro hflag
    have hcond : ¬(env.allow_empty_globs = false
        ∧ globResults env includes (excludesArg.getD []) dot (sb.getD env.dirname) = []) := by
      simp [hflag]
    simp only [glob]
    rw [if_neg hrec, if_neg hcond, hempty]

/-- A glob environment with no watcher and an empty directory, for the C5
witness. -/
def sampleGlobEnv : GlobEnv :=
  { dirname := "/r/pkg", project_root := "/r", base_path := "pkg",
    allow_empty_globs := false, watchman_client := Option.none,
    fs_walker := fun _ _ _ _ => [] }

/-- Witness for C5: an unmatched pattern in a no-empty-globs context. -/
theorem claim5_witness :
    ∃ msg, glob ["*.nope"] Option.none false sampleGlobEnv Option.none = .error msg
      ∧ strContains msg (pyStrListStr ["*.nope"]) = true
      ∧ strContains msg (pyStrListStr (Option.none.getD [])) = true
      ∧ strContains msg (pyBoolStr false) = true :=
  (claim5_glob_empty ["*.nope"] Option.none false sampleGlobEnv Option.none
    (by decide) rfl).1 rfl

/-- C6: `merge` unions `includes`, appends `diagnostics` in order,
shallow-merges `used_configs` and `used_env_vars` with `src` winning on a
top-level key collision, unions `user_rules`, and changes no other field
of `dst` (in particular a build-file context's `rules`). -/
theorem claim6_merge (dst src : Context) :
    (∀ x, x ∈ (Context.merge dst src).includes ↔ x ∈ dst.includes ∨ x ∈ src.includes)
    ∧ (Context.merge dst src).diagnostics = dst.diagnostics ++ src.diagnostics
    ∧ ((keysOf src.used_configs).Nodup → ∀ sect,
        alGet (Context.merge dst src).used_configs sect =
          alOr (alGet src.used_configs sect) (alGet dst.used_configs sect))
    ∧ ((keysOf src.used_env_vars).Nodup → ∀ nm,
        alGet (Context.merge dst src).used_env_vars nm =
          alOr (alGet src.used_env_vars nm) (alGet dst.used_env_vars nm))
    ∧ (∀ u, u ∈ (Context.merge dst src).user_rules ↔
        u ∈ dst.user_rules ∨ u ∈ src.user_rules)
    ∧ (∀ c, dst = .buildFile c → ∃ c', Context.merge dst src = .buildFile c'
        ∧ c'.rules = c.rules ∧ c'.project_root = c.project_root
        ∧ c'.base_path = c.base_path ∧ c'.path = c.path ∧ c'.dirname = c.dirname
        ∧ c'.cell_name = c.cell_name ∧ c'.allow_empty_globs = c.allow_empty_globs
        ∧ c'.ignore_paths = c.ignore_paths
        ∧ c'.implicit_package_symbols = c.implicit_package_symbols)
    ∧ (∀ c, dst = .includeFile c → ∃ c', Context.merge dst src = .includeFile c'
        ∧ c'.cell_name = c.cell_name ∧ c'.path = c.path ∧ c'.label = c.label) := by
  refine ⟨?_, ?_, ?_, ?_, ?_, ?_, ?_⟩
  · intro x
    cases dst <;> simp [Context.merge, Context.includes, Context.diagnostics,
      Context.used_configs, Context.used_env_vars, Context.user_rules, mem_setUnion]
  · cases dst <;> simp [Context.merge, Context.includes, Context.diagnostics,
      Context.used_configs, Context.used_env_vars, Context.user_rules]
  · intro hnd sect
    cases dst <;> exact alGet_alUpdate _ _ _ hnd
  · intro hnd nm
    cases dst <;> exact alGet_alUpdate _ _ _ hnd
  · intro u
    cases dst <;> simp [Context.merge, Context.user_rules, mem_setUnion]
  · intro c hc
    subst hc
    exact ⟨_, rfl, rfl, rfl, rfl, rfl, rfl, rfl, rfl, rfl, rfl⟩
  · intro c hc
    subst hc
    exact ⟨_, rfl, rfl, rfl, rfl⟩

/-- Witness for C6 on concrete build-file and include contexts. -/
theorem claim6_witness :
    (∀ x, x ∈ (Context.merge (.buildFile sampleEnv) (.includeFile sampleInclude)).includes ↔
      x ∈ (Context.buildFile sampleEnv).includes ∨ x ∈ (Context.includeFile sampleInclude).includes)
    ∧ (∀ sect, alGet (Context.merge (.buildFile sampleEnv) (.includeFile sampleInclude)).used_configs sect =
        alOr (alGet (Context.includeFile sampleInclude).used_configs sect)
          (alGet (Context.buildFile sampleEnv).used_configs sect))
    ∧ (∃ c', Context.merge (.buildFile sampleEnv) (.includeFile sampleInclude) = .buildFile c'
        ∧ c'.rules = sampleEnv.rules ∧ c'.project_root = sampleEnv.project_root
        ∧ c'.base_path = sampleEnv.base_path ∧ c'.path = sampleEnv.path
        ∧ c'.dirname = sampleEnv.dirname ∧ c'.cell_name = sampleEnv.cell_name
        ∧ c'.allow_empty_globs = sampleEnv.allow_empty_globs
        ∧ c'.ignore_paths = sampleEnv.ignore_paths
        ∧ c'.implicit_package_symbols = sampleEnv.implicit_package_symbols) :=
  ⟨(claim6_merge (.buildFile sampleEnv) (.includeFile sampleInclude)).1,
   (claim6_merge (.buildFile sampleEnv) (.includeFile sampleInclude)).2.2.1 (by decide),
   (claim6_merge (.buildFile sampleEnv) (.includeFile sampleInclude)).2.2.2.2.2.1 sampleEnv rfl⟩

/-- C7 counterexample: the claim "the label field preserves the input
label verbatim" fails for a non-empty cell — resolving `foo//defs.bzl`
stores label `@foo//defs.bzl`, not the input. -/
theorem claim7_counterexample :
    resolve_include [("foo", "/cells/foo")] "/root" "foo//defs.bzl"
        = .ok { cell_name := "foo", label := "@foo//defs.bzl", path := "/cells/foo/defs.bzl" }
      ∧ ("@foo//defs.bzl" : String) ≠ "foo//defs.bzl" := by
  exact ⟨rfl, by decide⟩

/-- C7 (amended): for every label matching `([A-Za-z0-9_]*)//(.*)`, the
produced `BuildInclude` carries the input verbatim as its label when the
cell part is empty, and `"@" + input` when the cell part is non-empty and
known; the path is the normalized join of the resolved root (the project
root for an empty cell) with the path part. -/
theorem claim7_resolve_include (cell_roots : List (String × String))
    (project_root name cell rel : String)
    (hm : matchIncludeLabel name = some (cell, rel)) :
    (cell = "" → resolve_include cell_roots project_root name
        = .ok { cell_name := cell, label := name,
                path := normpath (joinPath project_root rel) })
    ∧ (∀ root, cell ≠ "" → alGet cell_roots cell = some root →
        resolve_include cell_roots project_root name
          = .ok { cell_name := cell, label := "@" ++ name,
                  path := normpath (joinPath root rel) }) := by
  constructor
  · intro hc
    subst hc
    simp only [resolve_include, hm]
    rw [if_neg (by decide : ¬ ("" : String).length > 0)]
  · intro root hc hroot
    have hdata : cell.data ≠ [] := fun h0 => hc (String.ext (by simp [h0]))
    have hlen : cell.length > 0 := List.length_pos.mpr hdata
    simp only [resolve_include, hm]
    rw [if_pos hlen, hroot]

/-- Witness for C7 (amended) at one empty-cell and one named-cell label. -/
theorem claim7_witness :
    resolve_include [("foo", "/cells/foo")] "/root" "//pkg/defs.bzl"
        = .ok { cell_name := "", label := "//pkg/defs.bzl", path := "/root/pkg/defs.bzl" }
    ∧ resolve_include [("foo", "/cells/foo")] "/root" "foo//x/../defs.bzl"
        = .ok { cell_name := "foo", label := "@foo//x/../defs.bzl",
                path := "/cells/foo/defs.bzl" } :=
  ⟨(claim7_resolve_include [("foo", "/cells/foo")] "/root" "//pkg/defs.bzl"
      "" "pkg/defs.bzl" rfl).1 rfl,
   (claim7_resolve_include [("foo", "/cells/foo")] "/root" "foo//x/../defs.bzl"
      "foo" "x/../defs.bzl" rfl).2 "/cells/foo" (by decide) rfl⟩

/-- C4: calling a named UDR factory with keyword arguments: an unknown
kwarg is fatal; a missing (or `None`-valued, which `kwargs.get` cannot
distinguish) required implicit attribute is fatal; a missing mandatory
explicit attribute is fatal; and when the call succeeds the emitted
record carries `buck.type` equal to the factory's `buck_type`, carries
each absent non-mandatory explicit attribute's declared default, and is
inserted into the build-file context's rules under its name. -/
theorem claim4_udr_call (u : UserDefinedRule) (kwargs : Dict) (env : BuildFileContext)
    (bt : String) (hbt : u.buck_type = some bt) (hwf : UDRWf u) :
    ((∃ k, k ∈ keysOf kwargs ∧ k ∉ allAttrs u) →
      ∃ m, udrCall u kwargs env = (.error m, env))
    ∧ (∀ p, p ∈ u.required_attrs → pyGet kwargs p = .none →
      ∃ m, udrCall u kwargs env = (.error m, env))
    ∧ (∀ k a, (k, a) ∈ u.attrs → pyGet kwargs k = .none → a.mandatory = true →
      ∃ m, udrCall u kwargs env = (.error m, env))
    ∧ (∀ env', udrCall u kwargs env = (.ok (), env') →
      ∃ nm record,
        alGet record "buck.type" = some (PyVal.str bt)
        ∧ alGet record "name" = some (PyVal.str nm)
        ∧ env'.rules = env.rules ++ [(nm, record)]
        ∧ (∀ k a, (k, a) ∈ u.attrs → pyGet kwargs k = .none →
            alGet record k = some a.default)) := by
  obtain ⟨hwfR, hwfO, hwfA, hwfN, hwfD⟩ := hwf
  refine ⟨?_, ?_, ?_, ?_⟩
  · rintro ⟨k, hk1, hk2⟩
    have hkf : k ∈ (keysOf kwargs).filter (fun x => decide (x ∉ allAttrs u)) :=
      List.mem_filter.mpr ⟨hk1, by simp only [decide_eq_true_eq]; exact hk2⟩
    have hne : (keysOf kwargs).filter (fun x => decide (x ∉ allAttrs u)) ≠ [] :=
      List.ne_nil_of_mem hkf
    refine ⟨"Unexpected extra parameter(s) '" ++ String.intercalate ", "
      ((keysOf kwargs).filter (fun x => decide (x ∉ allAttrs u))) ++ "' provided for " ++ bt, ?_⟩
    simp only [udrCall, hbt]
    rw [if_pos hne]
  · intro p hp hmiss
    by_cases hne : (keysOf kwargs).filter (fun x => decide (x ∉ allAttrs u)) ≠ []
    · refine ⟨"Unexpected extra parameter(s) '" ++ String.intercalate ", "
        ((keysOf kwargs).filter (fun x => decide (x ∉ allAttrs u))) ++ "' provided for " ++ bt, ?_⟩
      simp only [udrCall, hbt]
      rw [if_pos hne]
    · obtain ⟨m, hm⟩ := requiredLoop_error_of_missing kwargs bt p hmiss u.required_attrs
        [("buck.type", PyVal.str bt)] hp
      refine ⟨m, ?_⟩
      simp only [udrCall, hbt]
      rw [if_neg hne]
      simp only [hm]
  · intro k a hka hmiss hmand
    by_cases hne : (keysOf kwargs).filter (fun x => decide (x ∉ allAttrs u)) ≠ []
    · refine ⟨"Unexpected extra parameter(s) '" ++ String.intercalate ", "
        ((keysOf kwargs).filter (fun x => decide (x ∉ allAttrs u))) ++ "' provided for " ++ bt, ?_⟩
      simp only [udrCall, hbt]
      rw [if_pos hne]
    · cases hr : requiredLoop u.required_attrs kwargs bt [("buck.type", PyVal.str bt)] with
      | error e =>
        refine ⟨e, ?_⟩
        simp only [udrCall, hbt]
        rw [if_neg hne]
        simp only [hr]
      | ok rule1 =>
        obtain ⟨m, hm⟩ := attrsLoop_error_of_mandatory kwargs bt k a hmiss hmand u.attrs
          (optionalLoop u.optional_attrs kwargs rule1) hka
        refine ⟨m, ?_⟩
        simp only [udrCall, hbt]
        rw [if_neg hne]
        simp only [hr, hm]
  · intro env' hok
    obtain ⟨rule1, rule3, nm, hr, ha, hname, hfresh, henv⟩ :=
      udrCall_ok_cases u kwargs env env' bt hbt hok
    have hbp_ne_type : ("buck.base_path" : String) ≠ "buck.type" := by decide
    have hbp_ne_name : ("buck.base_path" : String) ≠ "name" := by decide
    have hnotin_attrs : ("buck.type" : String) ∉ keysOf u.attrs :=
      fun hmem => absurd (hwfA _ hmem) (by decide)
    have hnotin_opt : ("buck.type" : String) ∉ u.optional_attrs :=
      fun hmem => absurd (hwfO _ hmem) (by decide)
    have hnotin_req : ("buck.type" : String) ∉ u.required_attrs :=
      fun hmem => absurd (hwfR _ hmem) (by decide)
    refine ⟨nm, alSet rule3 "buck.base_path" (PyVal.str env.base_path), ?_, ?_, ?_, ?_⟩
    · rw [alGet_alSet_ne _ _ _ _ hbp_ne_type]
      rw [attrsLoop_preserve kwargs bt _ u.attrs _ _ ha hnotin_attrs]
      rw [optionalLoop_preserve kwargs _ u.optional_attrs _ hnotin_opt]
      rw [requiredLoop_preserve kwargs bt _ u.required_attrs _ _ hr hnotin_req]
      simp [alGet]
    · rw [alGet_alSet_ne _ _ _ _ hbp_ne_name]
      exact hname
    · rw [henv]
    · intro k a hka hmiss2
      have hkA : VALID_IDENT k = true := hwfA k (List.mem_map_of_mem Prod.fst hka)
      have hkne : ("buck.base_path" : String) ≠ k :=
        fun hh => (VALID_IDENT_ne k hkA).2 hh.symm
      rw [alGet_alSet_ne _ _ _ _ hkne]
      rw [attrsLoop_get kwargs bt k a u.attrs _ _ hwfN hka ha]
      rw [if_pos hmiss2]

/-- Witness for C4: a successful call of `sampleUDR` with the defaulted
explicit attribute left out. -/
theorem claim4_witness :
    sampleUDR.buck_type = some "//:r.bzl:MyRule"
    ∧ UDRWf sampleUDR
    ∧ ∃ nm record,
        alGet record "buck.type" = some (PyVal.str "//:r.bzl:MyRule")
        ∧ alGet record "name" = some (PyVal.str nm)
        ∧ (udrCall sampleUDR [("name", PyVal.str "n"), ("y", PyVal.str "v")] sampleEnv0).2.rules
            = sampleEnv0.rules ++ [(nm, record)]
        ∧ (∀ k a, (k, a) ∈ sampleUDR.attrs →
            pyGet [("name", PyVal.str "n"), ("y", PyVal.str "v")] k = .none →
            alGet record k = some a.default) :=
  ⟨rfl, by unfold UDRWf; decide,
    (claim4_udr_call sampleUDR [("name", PyVal.str "n"), ("y", PyVal.str "v")] sampleEnv0
        "//:r.bzl:MyRule" rfl (by unfold UDRWf; decide)).2.2.2
      (udrCall sampleUDR [("name", PyVal.str "n"), ("y", PyVal.str "v")] sampleEnv0).2
      rfl⟩

/-- C9: a kwarg explicitly bound to `None` is treated exactly as if it
were absent: the whole call computes the same result as the call with
the key erased; for a required attribute, or a mandatory explicit
attribute, and when it is the only offender in an otherwise valid call,
it raises the `Mandatory parameter ... was missing` error; for an
optional attribute the key is omitted from the emitted record; and for a
non-mandatory explicit attribute the record carries the declared default
instead of `None`. -/
theorem claim9_explicit_none (u : UserDefinedRule) (kwargs : Dict) (env : BuildFileContext)
    (bt k : String) (hbt : u.buck_type = some bt) (hwf : UDRWf u)
    (hnone : pyGet kwargs k = .none) (hacc : k ∈ allAttrs u) :
    udrCall u kwargs env = udrCall u (alErase kwargs k) env
    ∧ (k ∈ u.required_attrs →
        (∀ k2, k2 ∈ keysOf kwargs → k2 ∈ allAttrs u) →
        (∀ p, p ∈ u.required_attrs → p ≠ k → pyGet kwargs p ≠ .none) →
        udrCall u kwargs env
          = (.error ("Mandatory parameter '" ++ k ++ "' for " ++ bt ++ " was missing"), env))
    ∧ (∀ a, (k, a) ∈ u.attrs → a.mandatory = true →
        (∀ k2, k2 ∈ keysOf kwargs → k2 ∈ allAttrs u) →
        (∀ p, p ∈ u.required_attrs → pyGet kwargs p ≠ .none) →
        (∀ k2 a2, (k2, a2) ∈ u.attrs → k2 ≠ k → a2.mandatory = true →
          pyGet kwargs k2 ≠ .none) →
        udrCall u kwargs env
          = (.error ("Mandatory parameter '" ++ k ++ "' for " ++ bt ++ " was missing"), env))
    ∧ (∀ env', k ∈ u.optional_attrs → udrCall u kwargs env = (.ok (), env') →
        ∃ nm record, env'.rules = env.rules ++ [(nm, record)]
          ∧ alGet record k = Option.none)
    ∧ (∀ env' a, (k, a) ∈ u.attrs → a.mandatory = false →
        udrCall u kwargs env = (.ok (), env') →
        ∃ nm record, env'.rules = env.rules ++ [(nm, record)]
          ∧ alGet record k = some a.default) := by
  refine ⟨?_, ?_, ?_, ?_, ?_⟩
  · have hpy : ∀ p, pyGet (alErase kwargs k) p = pyGet kwargs p := by
      intro p
      by_cases hp : p = k
      · subst hp
        rw [pyGet] at hnone
        rw [pyGet, pyGet, alGet_alErase_self, Option.getD_none, hnone]
      · rw [pyGet, pyGet, alGet_alErase_ne _ _ _ hp]
    have hkeys : (keysOf (alErase kwargs k)).filter (fun x => decide (x ∉ allAttrs u))
        = (keysOf kwargs).filter (fun x => decide (x ∉ allAttrs u)) :=
      keys_filter_alErase kwargs k _ (by simp [hacc])
    have hreq := requiredLoop_congr bt (alErase kwargs k) kwargs hpy
    have hopt := optionalLoop_congr (alErase kwargs k) kwargs hpy
    have hattrs := attrsLoop_congr bt (alErase kwargs k) kwargs hpy
    simp only [udrCall, hbt]
    rw [hkeys]
    simp only [hreq, hopt, hattrs]
  · intro hreq1 hclean hothers
    have hfe : (keysOf kwargs).filter (fun x => decide (x ∉ allAttrs u)) = [] := by
      apply List.filter_eq_nil_iff.mpr
      intro a2 hmem
      simp only [decide_eq_true_eq]
      exact fun hno => hno (hclean a2 hmem)
    have hr := requiredLoop_error_first kwargs bt k hnone u.required_attrs
      [("buck.type", PyVal.str bt)] hreq1 hothers
    simp only [udrCall, hbt]
    rw [if_neg (fun hcon => hcon hfe)]
    simp only [hr]
  · intro a hka hmand hclean hallreq hothers
    have hfe : (keysOf kwargs).filter (fun x => decide (x ∉ allAttrs u)) = [] := by
      apply List.filter_eq_nil_iff.mpr
      intro a2 hmem
      simp only [decide_eq_true_eq]
      exact fun hno => hno (hclean a2 hmem)
    obtain ⟨rule1, hr⟩ := requiredLoop_ok_of_present kwargs bt u.required_attrs
      [("buck.type", PyVal.str bt)] hallreq
    have hal := attrsLoop_error_first kwargs bt k a hnone hmand u.attrs
      (optionalLoop u.optional_attrs kwargs rule1) hka hothers
    simp only [udrCall, hbt]
    rw [if_neg (fun hcon => hcon hfe)]
    simp only [hr, hal]
  · intro env' hopt2 hok
    obtain ⟨rule1, rule3, nm, hr, ha, hname, hfresh, henv⟩ :=
      udrCall_ok_cases u kwargs env env' bt hbt hok
    obtain ⟨hwfR, hwfO, hwfA, hwfN, hwfD⟩ := hwf
    have hkO : VALID_IDENT k = true := hwfO k hopt2
    have hkne : ("buck.base_path" : String) ≠ k :=
      fun hh => (VALID_IDENT_ne k hkO).2 hh.symm
    have hknotattrs : k ∉ keysOf u.attrs := fun hmem => (hwfD k hmem).2 hopt2
    refine ⟨nm, alSet rule3 "buck.base_path" (PyVal.str env.base_path), ?_, ?_⟩
    · rw [henv]
    · rw [alGet_alSet_ne _ _ _ _ hkne]
      rw [attrsLoop_preserve kwargs bt _ u.attrs _ _ ha hknotattrs]
      rw [optionalLoop_none_preserve kwargs k hnone u.optional_attrs rule1]
      rw [requiredLoop_ok_none_preserve kwargs bt k hnone u.required_attrs _ _ hr]
      have hk_ne_bt : ("buck.type" : String) ≠ k :=
        fun hh => (VALID_IDENT_ne k hkO).1 hh.symm
      simp [alGet, hk_ne_bt]
  · intro env' a hka hmand hok
    obtain ⟨rule1, rule3, nm, hr, ha2, hname, hfresh, henv⟩ :=
      udrCall_ok_cases u kwargs env env' bt hbt hok
    obtain ⟨hwfR, hwfO, hwfA, hwfN, hwfD⟩ := hwf
    have hkA : VALID_IDENT k = true := hwfA k (List.mem_map_of_mem Prod.fst hka)
    have hkne : ("buck.base_path" : String) ≠ k :=
      fun hh => (VALID_IDENT_ne k hkA).2 hh.symm
    refine ⟨nm, alSet rule3 "buck.base_path" (PyVal.str env.base_path), ?_, ?_⟩
    · rw [henv]
    · rw [alGet_alSet_ne _ _ _ _ hkne]
      rw [attrsLoop_get kwargs bt k a u.attrs _ _ hwfN hka ha2]
      rw [if_pos hnone]

/-- Witness for C9: passing `x = None` to `sampleUDR` computes the same
call as omitting `x`, and the emitted record holds the default. -/
theorem claim9_witness :
    udrCall sampleUDR
        [("name", PyVal.str "n"), ("y", PyVal.str "v"), ("x", PyVal.none)] sampleEnv0
      = udrCall sampleUDR
          (alErase [("name", PyVal.str "n"), ("y", PyVal.str "v"), ("x", PyVal.none)] "x")
          sampleEnv0
    ∧ ∃ nm record,
        (udrCall sampleUDR
            [("name", PyVal.str "n"), ("y", PyVal.str "v"), ("x", PyVal.none)] sampleEnv0).2.rules
          = sampleEnv0.rules ++ [(nm, record)]
        ∧ alGet record "x" = some (PyVal.str "d") :=
  ⟨(claim9_explicit_none sampleUDR
      [("name", PyVal.str "n"), ("y", PyVal.str "v"), ("x", PyVal.none)] sampleEnv0
      "//:r.bzl:MyRule" "x" rfl (by unfold UDRWf; decide) rfl (by decide)).1,
   (claim9_explicit_none sampleUDR
      [("name", PyVal.str "n"), ("y", PyVal.str "v"), ("x", PyVal.none)] sampleEnv0
      "//:r.bzl:MyRule" "x" rfl (by unfold UDRWf; decide) rfl (by decide)).2.2.2.2
     (udrCall sampleUDR
        [("name", PyVal.str "n"), ("y", PyVal.str "v"), ("x", PyVal.none)] sampleEnv0).2
     { default := .str "d", mandatory := false } (by decide) rfl rfl⟩

end Buck
